import Mathlib

/-!
Verification of the `CringeCLIPModel` notebook (`CLIP_lightning.ipynb`).

The notebook wraps a pretrained CLIP model in a `pl.LightningModule`:
a forward dispatch (image branch checked before text, row-wise L2
normalization, `ValueError` when neither input is supplied), identical
`training_step` / `validation_step` methods computing an MSE loss, a
`DummyDataset`, a zero-step `pl.Trainer` run followed by
`save_checkpoint`, and a reload-and-print cell.

Floating-point tensors are modelled as lists of real numbers (a batch is
a list of rows).  A second scalar domain `FVal` with an explicit
non-finite value models the IEEE behaviour of the unguarded division by
a zero norm.  External collaborators (the pretrained encoders, the
tokenizer, `torch.randn`, the Lightning trainer and checkpoint
machinery) are opaque in the source; they appear here as parameters or
as definitions modelled from the spec, each marked as such.
-/

noncomputable section

/-- A tensor row: a dense vector of (real-modelled float) scalars. -/
abbrev Vec := List ℝ

/-- A batched tensor of shape `[batch, D]`: a list of rows. -/
abbrev Batch := List Vec

/-- Sum of squares of a row's entries (the inside of `x.norm(dim=-1)`). -/
def sumSq (v : Vec) : ℝ := (v.map (fun a => a ^ 2)).sum

/-- Row-wise L2 norm, `x.norm(dim=-1)`: the square root of the sum of squares. -/
def l2norm (v : Vec) : ℝ := Real.sqrt (sumSq v)

/-- The normalization step `x /= x.norm(dim=-1, keepdim=True)` applied to one
row: every entry is divided by the row's own L2 norm, with no guard and no
stabilizing epsilon. -/
def normalizeRow (v : Vec) : Vec := v.map (fun a => a / l2norm v)

/-- The statement `x /= x.norm(dim=-1, keepdim=True)` on a batched tensor: each row is
divided by its own norm (broadcast along the last dimension). -/
def normalizeBatch (x : Batch) : Batch := x.map normalizeRow

/-- The wrapper around the pretrained CLIP module, as the forward dispatch
sees it: two opaque encoder functions (`clip_module.encode_text` and
`clip_module.encode_image`), external pretrained collaborators. -/
structure CringeCLIPModel (τ ι : Type) where
  encode_text : τ → Batch
  encode_image : ι → Batch

/-- The message of the `ValueError` raised by the dispatch. -/
def invalid_input_msg : String := "Must provide either text or image"

/-- The method `CringeCLIPModel.forward(self, text=None, image=None)`:
raise `ValueError` when both are `None`; else if `image` is not `None`,
encode and normalize the image; else if `text` is not `None`, encode and
normalize the text.  The final `Except.ok none` arm is Python's implicit
`return None` after the `elif` chain. -/
def CringeCLIPModel.forward (m : CringeCLIPModel τ ι)
    (text : Option τ) (image : Option ι) : Except String (Option Batch) :=
  if text.isNone && image.isNone then
    Except.error invalid_input_msg
  else
    match image with
    | some img => Except.ok (some (normalizeBatch (m.encode_image img)))
    | none =>
      match text with
      | some t => Except.ok (some (normalizeBatch (m.encode_text t)))
      | none => Except.ok none

/-- Total number of scalar elements of a batched tensor (`Tensor.numel`). -/
def numel (x : Batch) : ℕ := (x.map List.length).sum

/-- The call `F.mse_loss(input, target)` with the default `reduction='mean'`: the mean
of the squared element-wise differences. -/
def mse_loss (input target : Batch) : ℝ :=
  (List.zipWith (fun r t => (List.zipWith (fun a b => (a - b) ^ 2) r t).sum)
      input target).sum / (numel input : ℝ)

/-- The method `training_step(self, train_batch, batch_idx)`: unpack `(text, output)`,
run `self.forward(text=text)`, return `F.mse_loss(y, output)`.  A raised
`ValueError` propagates; the (unreachable, see the dispatch totality theorem)
`None` result of `forward` is carried through untouched. -/
def CringeCLIPModel.training_step (m : CringeCLIPModel τ ι)
    (train_batch : τ × Batch) (batch_idx : ℕ) : Except String (Option ℝ) :=
  let text := train_batch.1
  let output := train_batch.2
  (m.forward (some text) none).map (fun y => y.map (fun v => mse_loss v output))

/-- The method `validation_step(self, train_batch, batch_idx)`: textually the same body
as `training_step` in the source. -/
def CringeCLIPModel.validation_step (m : CringeCLIPModel τ ι)
    (train_batch : τ × Batch) (batch_idx : ℕ) : Except String (Option ℝ) :=
  let text := train_batch.1
  let output := train_batch.2
  (m.forward (some text) none).map (fun y => y.map (fun v => mse_loss v output))

/-- The raw (pre-normalization) embedding batch selected by the dispatch
order of `forward` (image checked before text); used to state the unit-norm
property. -/
def rawBatch (m : CringeCLIPModel τ ι) (text : Option τ) (image : Option ι) :
    Batch :=
  match image with
  | some img => m.encode_image img
  | none =>
    match text with
    | some t => m.encode_text t
    | none => []

/-! ### IEEE-style scalar domain for the division-by-zero edge case

The real-number model above uses Lean's `x / 0 = 0` convention, which hides
what the floating-point source actually does on a zero-norm row.  `FVal`
refines a scalar to either a finite value or a non-finite one (NaN or ±Inf,
not distinguished); every arithmetic operation propagates non-finiteness,
and division by a (finite) zero produces a non-finite value, exactly the
behaviour of the unguarded `x /= x.norm(...)` on a zero row (each entry of
such a row is `0.0 / 0.0 = NaN`). -/

/-- A floating-point scalar: finite (modelled exactly as a real) or
non-finite (NaN/±Inf collapsed). -/
inductive FVal where
  | fin : ℝ → FVal
  | nonfinite : FVal

/-- Float multiplication: finite on finite operands, non-finiteness
propagates. -/
def FVal.mul : FVal → FVal → FVal
  | FVal.fin a, FVal.fin b => FVal.fin (a * b)
  | _, _ => FVal.nonfinite

/-- Float addition: finite on finite operands, non-finiteness propagates. -/
def FVal.add : FVal → FVal → FVal
  | FVal.fin a, FVal.fin b => FVal.fin (a + b)
  | _, _ => FVal.nonfinite

/-- Float division: division by zero (as in `0.0 / 0.0`) is non-finite,
and non-finiteness propagates. -/
def FVal.div : FVal → FVal → FVal
  | FVal.fin a, FVal.fin b => if b = 0 then FVal.nonfinite else FVal.fin (a / b)
  | _, _ => FVal.nonfinite

/-- Float square root: non-finite (NaN) on negative or non-finite input. -/
def FVal.sqrt : FVal → FVal
  | FVal.fin a => if a < 0 then FVal.nonfinite else FVal.fin (Real.sqrt a)
  | FVal.nonfinite => FVal.nonfinite

/-- Sum of squares of a row over the IEEE-style domain. -/
def sumSqF (v : List FVal) : FVal :=
  (v.map (fun a => a.mul a)).foldr FVal.add (FVal.fin 0)

/-- Row-wise L2 norm over the IEEE-style domain. -/
def l2normF (v : List FVal) : FVal := (sumSqF v).sqrt

/-- The normalization step `x /= x.norm(dim=-1, keepdim=True)` on one row,
over the IEEE-style domain: the same unguarded division by the row's own
norm as `normalizeRow`, but with the float semantics of division by zero. -/
def normalizeRowF (v : List FVal) : List FVal :=
  v.map (fun a => a.div (l2normF v))

/-- Batched normalization over the IEEE-style domain. -/
def normalizeBatchF (x : List (List FVal)) : List (List FVal) :=
  x.map normalizeRowF

/-- The wrapper observed at IEEE-style precision: the same two opaque
encoders, producing float rows. -/
structure CringeCLIPModelF (τ ι : Type) where
  encode_text : τ → List (List FVal)
  encode_image : ι → List (List FVal)

/-- The dispatch `CringeCLIPModel.forward` over the IEEE-style scalar domain: same
control flow as `CringeCLIPModel.forward`, float semantics for the
normalization step. -/
def CringeCLIPModelF.forward (m : CringeCLIPModelF τ ι)
    (text : Option τ) (image : Option ι) :
    Except String (Option (List (List FVal))) :=
  if text.isNone && image.isNone then
    Except.error invalid_input_msg
  else
    match image with
    | some img => Except.ok (some (normalizeBatchF (m.encode_image img)))
    | none =>
      match text with
      | some t => Except.ok (some (normalizeBatchF (m.encode_text t)))
      | none => Except.ok none

/-! ### Checkpoint round-trip harness

The trainer, `save_checkpoint` and `load_state_dict` are external
(pytorch-lightning / torch) machinery; only their call sites are in the
notebook.  They are modelled from the spec below: the wrapper's trainable
state is an opaque parameter vector, a checkpoint persists it (plus
framework bookkeeping), and the pretrained architecture is a fixed family
of encoder functions over that parameter vector. -/

/-- Modelled from the spec: the parameter-name → tensor-value mapping of the
wrapper (`state_dict`-shaped), flattened to an opaque list of scalars. -/
abbrev StateDict := List ℝ

/-- Modelled from the spec: the mutable state of the Embedding Wrapper —
the parameter values of its `clip_module`. -/
structure WrapperState where
  params : StateDict

/-- Modelled from the spec: the fixed pretrained architecture — the two
opaque encode functions, as a function of the current parameter values.
Two wrapper instances are "structurally identical" when they share this. -/
structure PretrainedArch (τ ι : Type) where
  text_of : StateDict → τ → Batch
  image_of : StateDict → ι → Batch

/-- The `CringeCLIPModel` dispatch view of a wrapper state under a fixed
architecture: `encode_text` / `encode_image` with the current parameters. -/
def instantiateWrapper (arch : PretrainedArch τ ι) (w : WrapperState) :
    CringeCLIPModel τ ι :=
  ⟨arch.text_of w.params, arch.image_of w.params⟩

/-- Modelled from the spec: a checkpoint — a persisted snapshot of the
wrapper's parameter values plus framework bookkeeping (step count). -/
structure Checkpoint where
  state_dict : StateDict
  global_step : ℕ

/-- Modelled from the spec: `model_trainer.save_checkpoint` persists the
wrapper's parameters (with the step count reached by the run). -/
def save_checkpoint (w : WrapperState) (stepsDone : ℕ) : Checkpoint :=
  ⟨w.params, stepsDone⟩

/-- Modelled from the spec: `model.load_state_dict(sd)` replaces every
parameter of the wrapper with the value recorded in `sd`. -/
def load_state_dict (w : WrapperState) (sd : StateDict) : WrapperState :=
  ⟨sd⟩

/-- The `max_steps=0` configuration of `pl.Trainer` in the dump cell. -/
def trainer_max_steps : ℕ := 0

/-- Modelled from the spec: `model_trainer.fit` — a training-style runner
that applies the optimizer update `step` once per optimization step, for
`maxSteps` steps (validation passes do not touch parameters). -/
def trainer_fit (step : WrapperState → WrapperState) (maxSteps : ℕ)
    (w : WrapperState) : WrapperState :=
  step^[maxSteps] w

/-- The reload cell: construct a fresh wrapper (`model = CringeCLIPModel()`),
load the checkpoint's `state_dict` into it, re-run the forward dispatch on
the input, and print the result.  The returned value is what the cell
prints; note there is no comparison against the pre-save embedding. -/
def reload_and_print (arch : PretrainedArch τ ι) (fresh : WrapperState)
    (sd : StateDict) (input : τ) : Except String (Option Batch) :=
  (instantiateWrapper arch (load_state_dict fresh sd)).forward (some input) none

/-! ### The dummy dataset -/

/-- The fixed prompt of the notebook, tokenized on every access. -/
def fixed_text : List String := ["a photo of a cat"]

/-- The call `Tensor.squeeze(0)` on a tensor of leading dimension 1 (the only shape
it is applied to in the notebook): drop the leading batch dimension. -/
def squeeze0 (x : List (List α)) : List α := x.headD []

/-- Modelled from the spec: `torch.randn(size)` for a two-dimensional
`size = [rows, cols]` — an external collaborator returning a tensor of the
requested shape; its entries are arbitrary draws `g i j` from the ambient
pseudo-random generator. -/
def torch_randn (g : ℕ → ℕ → ℝ) (rows cols : ℕ) : Batch :=
  (List.range rows).map (fun i => (List.range cols).map (fun j => g i j))

/-- The method `DummyDataset.__len__`. -/
def DummyDataset.len : ℕ := 100

/-- The method `DummyDataset.__getitem__(self, idx)`: tokenize the fixed prompt and
squeeze the batch dimension; draw a random tensor of `example_output`'s
size `[1, D]` and squeeze it.  `tokenizer` is the opaque external
tokenizer, `exampleDim` the embedding width `D` of `example_output`, and
`g` the generator state consumed by this access. -/
def DummyDataset.getitem (tokenizer : List String → List (List ℕ))
    (exampleDim : ℕ) (g : ℕ → ℕ → ℝ) (idx : ℕ) : List ℕ × Vec :=
  let text := squeeze0 (tokenizer fixed_text)
  let output := squeeze0 (torch_randn g 1 exampleDim)
  (text, output)

/-! ### Concrete instances used by witnesses and counterexamples -/

/-- A concrete wrapper whose text encoder returns the single raw row
`[3, 4]` (L2 norm 5) for every input. -/
def mWit : CringeCLIPModel ℕ ℕ := ⟨fun _ => [[3, 4]], fun _ => [[3, 4]]⟩

/-- A concrete wrapper whose encoders return the single raw row `[0]`
(L2 norm exactly zero) for every input. -/
def mZero : CringeCLIPModel ℕ ℕ := ⟨fun _ => [[0]], fun _ => [[0]]⟩

/-- The zero-raw-row wrapper observed at IEEE-style precision. -/
def mFZero : CringeCLIPModelF ℕ ℕ :=
  ⟨fun _ => [[FVal.fin 0]], fun _ => [[FVal.fin 0]]⟩

/-- A concrete one-parameter architecture: both encoders return the single
raw row `[θ₀]` holding the first parameter. -/
def archWit : PretrainedArch ℕ ℕ :=
  ⟨fun θ _ => [[θ.getD 0 0]], fun θ _ => [[θ.getD 0 0]]⟩

/-! ### Normalization lemmas -/

lemma sumSq_cons (a : ℝ) (v : Vec) : sumSq (a :: v) = a ^ 2 + sumSq v := by
  simp [sumSq]

lemma sumSq_nonneg (v : Vec) : 0 ≤ sumSq v := by
  induction v with
  | nil => simp [sumSq]
  | cons a v ih => rw [sumSq_cons]; exact add_nonneg (sq_nonneg a) ih

lemma sumSq_map_div (v : Vec) (c : ℝ) :
    sumSq (v.map (fun a => a / c)) = sumSq v / c ^ 2 := by
  induction v with
  | nil => simp [sumSq]
  | cons a v ih =>
    rw [List.map_cons, sumSq_cons, sumSq_cons, ih, div_pow, add_div]

lemma l2norm_sq (v : Vec) : l2norm v ^ 2 = sumSq v :=
  Real.sq_sqrt (sumSq_nonneg v)

lemma l2norm_normalizeRow (v : Vec) (h : l2norm v ≠ 0) :
    l2norm (normalizeRow v) = 1 := by
  have hs : sumSq v ≠ 0 := by
    intro h0
    exact h (by rw [l2norm, h0, Real.sqrt_zero])
  have hone : sumSq (normalizeRow v) = 1 := by
    rw [normalizeRow, sumSq_map_div, l2norm_sq, div_self hs]
  rw [l2norm, hone, Real.sqrt_one]

lemma l2norm_normalizeBatch (b : Batch) (h : ∀ r ∈ b, l2norm r ≠ 0) :
    ∀ row ∈ normalizeBatch b, l2norm row = 1 := by
  intro row hrow
  rw [normalizeBatch, List.mem_map] at hrow
  obtain ⟨r, hr, rfl⟩ := hrow
  exact l2norm_normalizeRow r (h r hr)

/-! ### Claims about the forward dispatch -/

/-- C2 (amended): for every call to the forward dispatch with a non-empty
text input or a non-empty image input, provided every raw (pre-normalization)
embedding row selected by the dispatch has nonzero L2 norm, every row of the
returned embedding has L2 norm equal to 1. -/
theorem C2_unit_norm (m : CringeCLIPModel τ ι) (t : Option τ) (i : Option ι)
    (hsome : t.isSome ∨ i.isSome)
    (hraw : ∀ r ∈ rawBatch m t i, l2norm r ≠ 0) :
    ∃ out, m.forward t i = Except.ok (some out) ∧ ∀ row ∈ out, l2norm row = 1 := by
  cases i with
  | some img =>
    refine ⟨normalizeBatch (m.encode_image img), ?_, ?_⟩
    · cases t <;> rfl
    · exact l2norm_normalizeBatch _ hraw
  | none =>
    cases t with
    | some tt =>
      exact ⟨normalizeBatch (m.encode_text tt), rfl, l2norm_normalizeBatch _ hraw⟩
    | none => simp at hsome

/-- Witness for C2 (amended) at the wrapper whose raw row is `[3, 4]`. -/
theorem C2_unit_norm_witness :
    ∃ out, mWit.forward (some 0) none = Except.ok (some out)
      ∧ ∀ row ∈ out, l2norm row = 1 :=
  C2_unit_norm mWit (some 0) none (Or.inl rfl)
    (by
      intro r hr
      simp only [rawBatch, mWit, List.mem_singleton] at hr
      subst hr
      rw [l2norm, Ne, Real.sqrt_eq_zero']
      simp [sumSq]
      norm_num)

/-- Counterexample to C2 as stated: a call with a non-empty text input whose
raw embedding row is `[0]` returns the row `[0]` (real-division semantics),
whose L2 norm is not 1. -/
theorem C2_counterexample :
    mZero.forward (some 0) none = Except.ok (some [[(0 : ℝ)]])
    ∧ l2norm [(0 : ℝ)] ≠ 1 := by
  constructor
  · simp [CringeCLIPModel.forward, mZero, normalizeBatch, normalizeRow]
  · rw [l2norm]
    simp [sumSq]

/-- C3: the forward dispatch fails with the "invalid input" usage error iff
neither text nor image is supplied; when at least one is supplied it returns
an embedding batch and does not raise. -/
theorem C3_error_iff_neither (m : CringeCLIPModel τ ι)
    (t : Option τ) (i : Option ι) :
    (m.forward t i = Except.error invalid_input_msg ↔ t = none ∧ i = none)
    ∧ (t ≠ none ∨ i ≠ none → ∃ b, m.forward t i = Except.ok (some b)) := by
  cases t <;> cases i <;> simp [CringeCLIPModel.forward]

/-- Witness for C3: with a text input supplied, the dispatch returns an
embedding. -/
theorem C3_error_iff_neither_witness :
    ∃ b, mWit.forward (some 0) none = Except.ok (some b) :=
  (C3_error_iff_neither mWit (some 0) none).2 (Or.inl (by simp))

/-- C4: when both a text and an image input are supplied, the image branch
is taken and the text input is silently ignored — the result equals calling
the dispatch with the image alone. -/
theorem C4_image_precedence (m : CringeCLIPModel τ ι) (t : τ) (img : ι) :
    m.forward (some t) (some img) = m.forward none (some img) := rfl

/-- C9: for every combination of optional arguments, the forward dispatch
either raises the usage error or returns an embedding batch; no combination
falls through every branch to Python's implicit `None`. -/
theorem C9_dispatch_total (m : CringeCLIPModel τ ι) (t : Option τ) (i : Option ι) :
    m.forward t i = Except.error invalid_input_msg
    ∨ ∃ b, m.forward t i = Except.ok (some b) := by
  cases t <;> cases i <;> simp [CringeCLIPModel.forward]

/-- C10: `training_step` and `validation_step` compute the same function:
on every batch of `(text, target)` and every batch index they return the
identical MSE loss between the forward text embedding and the target. -/
theorem C10_training_eq_validation (m : CringeCLIPModel τ ι)
    (train_batch : τ × Batch) (batch_idx : ℕ) :
    m.training_step train_batch batch_idx
      = m.validation_step train_batch batch_idx := rfl

/-! ### Claims about the checkpoint round-trip harness -/

/-- C1: for a fixed input, the embedding produced after running the trainer
for `max_steps=0`, saving a checkpoint, loading its `state_dict` into a
fresh structurally identical wrapper and re-running the dispatch equals the
embedding the original wrapper produced for that input before saving
(exactly, in the real-number model of the floats). -/
theorem C1_checkpoint_roundtrip (arch : PretrainedArch τ ι)
    (step : WrapperState → WrapperState) (w0 fresh : WrapperState) (input : τ) :
    reload_and_print arch fresh
      (save_checkpoint (trainer_fit step trainer_max_steps w0)
        trainer_max_steps).state_dict input
    = (instantiateWrapper arch w0).forward (some input) none := rfl

/-- C6: the harness runs the trainer for zero optimization steps
(`max_steps=0`), so after the run and at the moment of saving every
parameter of the wrapper is unchanged from its value at initialization. -/
theorem C6_zero_steps_params_unchanged (step : WrapperState → WrapperState)
    (w : WrapperState) :
    trainer_max_steps = 0
    ∧ trainer_fit step trainer_max_steps w = w
    ∧ (save_checkpoint (trainer_fit step trainer_max_steps w)
        trainer_max_steps).state_dict = w.params :=
  ⟨rfl, rfl, rfl⟩

/-- Counterexample to C7 as stated: under the one-parameter architecture,
the wrapper saved with parameter value 1 produced the embedding `[[1]]`
before saving, a reload run whose loaded `state_dict` is `[0]` produces
the different embedding `[[0]]`, and the harness still completes with a
successful result — it has no comparison step and does not fail. -/
theorem C7_counterexample :
    reload_and_print archWit ⟨[5]⟩ [0] 0 = Except.ok (some [[(0 : ℝ)]])
    ∧ (instantiateWrapper archWit ⟨[1]⟩).forward (some 0) none
        = Except.ok (some [[(1 : ℝ)]])
    ∧ ([[(0 : ℝ)]] : Batch) ≠ [[(1 : ℝ)]] := by
  refine ⟨?_, ?_, ?_⟩
  · simp [reload_and_print, instantiateWrapper, load_state_dict, archWit,
      CringeCLIPModel.forward, normalizeBatch, normalizeRow]
  · simp [instantiateWrapper, archWit, CringeCLIPModel.forward,
      normalizeBatch, normalizeRow, l2norm, sumSq]
  · norm_num

/-- C7 (amended): the reload cell re-runs inference and prints the result;
it performs no comparison with the pre-save embedding, so regardless of any
mismatch the run completes successfully (returns an embedding, never an
error) — mismatch detection is left to manual inspection. -/
theorem C7_reload_never_fails (arch : PretrainedArch τ ι)
    (fresh : WrapperState) (sd : StateDict) (input : τ) :
    ∃ b, reload_and_print arch fresh sd input = Except.ok (some b) :=
  ⟨_, rfl⟩

/-! ### Claim about the dummy dataset -/

/-- C8: for every index (and every generator state), the dataset item is the
fixed tokenized prompt — identical across indices — paired with a dummy
target whose shape is the fixed embedding width `D` of `example_output`. -/
theorem C8_dummy_dataset_item (tokenizer : List String → List (List ℕ))
    (D : ℕ) (g gOther : ℕ → ℕ → ℝ) (idx idxOther : ℕ) :
    (DummyDataset.getitem tokenizer D g idx).1 = squeeze0 (tokenizer fixed_text)
    ∧ (DummyDataset.getitem tokenizer D g idx).1
        = (DummyDataset.getitem tokenizer D gOther idxOther).1
    ∧ ((DummyDataset.getitem tokenizer D g idx).2).length = D := by
  refine ⟨rfl, rfl, ?_⟩
  simp [DummyDataset.getitem, torch_randn, squeeze0,
    show List.range 1 = [0] from rfl]

/-! ### Claim about the unguarded division by a zero norm -/

lemma sumSqF_map_fin (r : Vec) : sumSqF (r.map FVal.fin) = FVal.fin (sumSq r) := by
  induction r with
  | nil => simp [sumSqF, sumSq]
  | cons a v ih =>
    rw [List.map_cons, sumSqF, List.map_cons, List.foldr_cons]
    rw [sumSqF] at ih
    rw [ih, sumSq_cons, FVal.mul, FVal.add, sq]

lemma l2normF_map_fin (r : Vec) :
    l2normF (r.map FVal.fin) = FVal.fin (l2norm r) := by
  rw [l2normF, sumSqF_map_fin]
  show (if sumSq r < 0 then FVal.nonfinite else FVal.fin (Real.sqrt (sumSq r)))
      = FVal.fin (l2norm r)
  rw [if_neg (not_lt.mpr (sumSq_nonneg r)), l2norm]

lemma normalizeRowF_zero_norm (r : Vec) (h : l2norm r = 0) :
    ∀ a ∈ normalizeRowF (r.map FVal.fin), a = FVal.nonfinite := by
  intro a ha
  rw [normalizeRowF, l2normF_map_fin, h, List.map_map, List.mem_map] at ha
  obtain ⟨x, hx, rfl⟩ := ha
  simp [FVal.div]

/-- C5: the normalization step of the forward dispatch divides by the
row-wise L2 norm with no guard or stabilizing epsilon; for any input whose
raw embedding row has exactly zero L2 norm, under IEEE-style float semantics
the division by zero makes every entry of that output row non-finite. -/
theorem C5_zero_norm_nonfinite (m : CringeCLIPModelF τ ι) (t : τ) (i : ℕ)
    (r : Vec)
    (hrow : (m.encode_text t).get? i = some (r.map FVal.fin))
    (hzero : l2norm r = 0) :
    ∃ out, m.forward (some t) none = Except.ok (some out)
      ∧ out.get? i = some (normalizeRowF (r.map FVal.fin))
      ∧ ∀ a ∈ normalizeRowF (r.map FVal.fin), a = FVal.nonfinite := by
  refine ⟨normalizeBatchF (m.encode_text t), rfl, ?_, ?_⟩
  · rw [normalizeBatchF, List.get?_map, hrow]
    rfl
  · exact normalizeRowF_zero_norm r hzero

/-- Witness for C5 at the wrapper whose raw text row is `[fin 0]`. -/
theorem C5_zero_norm_nonfinite_witness :
    ∃ out, mFZero.forward (some 0) none = Except.ok (some out)
      ∧ out.get? 0 = some (normalizeRowF (([0] : Vec).map FVal.fin))
      ∧ ∀ a ∈ normalizeRowF (([0] : Vec).map FVal.fin), a = FVal.nonfinite :=
  C5_zero_norm_nonfinite mFZero 0 0 [0] rfl (by rw [l2norm]; simp [sumSq])

end
